import Mathlib

/-!
Verification development for the boundedinfinity/enumeration repository.

The embedding covers the resolution and matching engine:

* the `enumer` library helpers (`IsEq`, `Scan`) from the package source;
* the companion matcher generated by `processTemplate` in
  `src/cmd/enumer/main.go` (the `parseMap`-based variant, suffix `New`)
  and the older generated variant in `src/unnamed/part_000` that
  delegates to the library `IsEq` (suffix `Old`);
* the per-value resolution loop of `processEnum` in both variants.

Go strings are modelled as Lean `String`; the Go standard library case
maps `strings.ToLower` / `strings.ToUpper` are modelled on their ASCII
fragment (every concrete value exercised here is ASCII).  External
go-commoner / caser text transforms, which the specification treats as
pure capabilities, are taken as function parameters.
-/

namespace Enumer

/-- Models `strings.ToLower` from the Go standard library, restricted to
its ASCII fragment: each character in the range `A`-`Z` is shifted to
the corresponding lower-case character, every other character is kept.
`Char.toLower` from the Lean core library is exactly this map. -/
def goToLower (s : String) : String :=
  ⟨s.data.map Char.toLower⟩

/-- Models `strings.ToUpper` from the Go standard library, restricted to
its ASCII fragment. -/
def goToUpper (s : String) : String :=
  ⟨s.data.map Char.toUpper⟩

/-- Embedding of `enumer.IsEq` (library source, `src/unnamed/part_000`):

    func IsEq[A ~string, B ~string](a A) func(B) bool {
        as := string(a)
        lower := strings.ToLower(as)
        upper := strings.ToLower(as)
        return func(b B) bool {
            bs := string(b)
            return as == bs ||
                lower == strings.ToLower(bs) ||
                upper == strings.ToUpper(bs)
        }
    }

Note that the source computes `upper` with `strings.ToLower`; the
embedding keeps that faithfully. -/
def IsEq (a : String) (b : String) : Bool :=
  let as := a
  let lower := goToLower as
  let upper := goToLower as
  as == b || lower == goToLower b || upper == goToUpper b

/-- One raw enumeration value entry: `name`, `serialized` and the
`parse-from` alias list.  Absent optional fields are the empty string,
matching the Go zero value checked by `stringer.IsEmpty`. -/
structure ValueSpec where
  name : String
  serialized : String
  parseFrom : List String
deriving DecidableEq

/-- Models `stringer.IsEmpty` from go-commoner (external capability):
the test against the zero value used by `processEnum`. -/
def isEmptyS (s : String) : Bool :=
  s == ""

/-- Payload of the match failure produced by the generated matcher: the
offending text and the list of valid strings that the error message
joins for display. -/
structure MatchError where
  text : String
  valid : List String
deriving DecidableEq

/-- Embedding of the generated `parseMap` lookup
(`src/cmd/enumer/main.go`, generated `init`): the map is keyed by the
companion enum values, i.e. by serialized form, and each entry lists
the serialized form, the name, and every `parse-from` alias of that
value, in that order. -/
def parseMap (all : List ValueSpec) (item : String) : Option (List String) :=
  (all.find? (fun v => v.serialized == item)).map
    (fun v => v.serialized :: v.name :: v.parseFrom)

/-- Embedding of the generated `errf` closure
(`src/cmd/enumer/main.go`, generated `init`): collects the `parseMap`
entry of every candidate that has one, flattened in candidate order. -/
def errf (all : List ValueSpec) (text : String) (items : List String) : MatchError :=
  { text := text, valid := (items.filterMap (parseMap all)).flatten }

/-- Loop body of the generated `ParseFrom` (`src/cmd/enumer/main.go`,
lines 570-607).  Faithful to the source control flow: the check
`if !ok { return found, t.errf(v, items...) }` and the success return
both sit inside the outer `range` loop, so the first candidate that has
a `parseMap` entry decides the whole call; candidates without an entry
are skipped by `continue`; falling out of the loop returns the zero
value with a nil error. -/
def parseFromLoopNew (all : List ValueSpec) (v : String) (full : List String) :
    List String → Except MatchError String
  | [] => .ok ""
  | item :: rest =>
    match parseMap all item with
    | none => parseFromLoopNew all v full rest
    | some matchers =>
      if matchers.any (fun matcher => v == matcher) then .ok item
      else .error (errf all v full)

/-- Embedding of the generated `ParseFrom` (`src/cmd/enumer/main.go`). -/
def ParseFromNew (all : List ValueSpec) (v : String) (items : List String) :
    Except MatchError String :=
  parseFromLoopNew all v items items

/-- Embedding of the generated `Values`: the companion fields, i.e. the
serialized forms, in declaration order. -/
def ValuesNew (all : List ValueSpec) : List String :=
  all.map (fun x => x.serialized)

/-- Embedding of the generated `Parse` (`src/cmd/enumer/main.go`):
`ParseFrom` over the whole universe. -/
def ParseNew (all : List ValueSpec) (v : String) : Except MatchError String :=
  ParseFromNew all v (ValuesNew all)

/-- Embedding of the generated `IsFrom` (`src/cmd/enumer/main.go`):
true exactly when `ParseFrom` returned a nil error. -/
def IsFromNew (all : List ValueSpec) (v : String) (items : List String) : Bool :=
  match ParseFromNew all v items with
  | .ok _ => true
  | .error _ => false

/-- Embedding of the generated `Is` (`src/cmd/enumer/main.go`). -/
def IsNew (all : List ValueSpec) (v : String) : Bool :=
  IsFromNew all v (ValuesNew all)

/-- Embedding of the older generated `newErr`
(`src/unnamed/part_000`): the offending text plus the candidate values
(their serialized forms), joined for display. -/
def newErr (text : String) (values : List String) : MatchError :=
  { text := text, valid := values }

/-- Embedding of the older generated `ParseFrom`
(`src/unnamed/part_000`, lines 529-563): scan all candidate values in
order, matching the input text against the candidate value itself with
the library `IsEq`; if none matches, fail with `newErr`. -/
def ParseFromOld (v : String) (values : List String) : Except MatchError String :=
  match values.find? (fun value => IsEq v value) with
  | some found => .ok found
  | none => .error (newErr v values)

/-- Embedding of the older generated `IsFrom`
(`src/unnamed/part_000`, lines 577-592): an independent scan with
`IsEq`, returning a plain Bool. -/
def IsFromOld (v : String) (values : List String) : Bool :=
  values.any (fun value => IsEq v value)

/-- Embedding of the older generated `Parse`: `ParseFrom` over the
companion universe `values`. -/
def ParseOld (values : List String) (v : String) : Except MatchError String :=
  ParseFromOld v values

/-- Embedding of the older generated `Is`: `IsFrom` over the companion
universe `values`. -/
def IsOld (values : List String) (v : String) : Bool :=
  IsFromOld v values

/-- Bundle of the external go-commoner / caser text transforms used by
the current `processEnum` value loop (`src/cmd/enumer/main.go`,
lines 274-293).  The specification treats these as pure string
capabilities, so they are parameters of the embedding; the extra fixed
arguments of the Go calls are already applied:
`replaceNonLanguageCharacters` stands for
`stringer.ReplaceNonLanguageCharacters(s, " ", "_")`,
`phraseToPascal` for `caser.Convert(s, Phrase, Pascal)`,
`removeNonLanguageCharacters` for
`stringer.RemoveNonLanguageCharacters(s, "_")`. -/
structure CaserLib where
  replaceNonLanguageCharacters : String → String
  phraseToPascal : String → String
  removeNonLanguageCharacters : String → String
  pascalToKebabLower : String → String
  removeSpace : String → String

/-- Embedding of one iteration of the `processEnum` value loop of
`src/cmd/enumer/main.go` (lines 274-293).  `none` models the
`fmt.Errorf("invalid values[i] name or serialized value", i)` abort. -/
def resolveValueNew (lib : CaserLib) (v : ValueSpec) : Option ValueSpec :=
  if isEmptyS v.name && isEmptyS v.serialized then none
  else if isEmptyS v.name && !isEmptyS v.serialized then
    some { v with name := lib.phraseToPascal (lib.replaceNonLanguageCharacters v.serialized) }
  else if !isEmptyS v.name && isEmptyS v.serialized then
    some { v with
            serialized := lib.pascalToKebabLower (lib.removeNonLanguageCharacters v.name),
            name := lib.removeSpace (lib.removeNonLanguageCharacters v.name) }
  else
    some { v with name := lib.removeSpace (lib.removeNonLanguageCharacters v.name) }

/-- Embedding of the whole `processEnum` value loop of
`src/cmd/enumer/main.go`: values are resolved in order, and the first
invalid entry aborts everything with its index (the payload of the
`invalid values[i]` error).  The `Except` result is all-or-nothing:
an error carries no resolved value at all. -/
def processValuesNew (lib : CaserLib) : List ValueSpec → Nat → Except Nat (List ValueSpec)
  | [], _ => .ok []
  | v :: rest, i =>
    match resolveValueNew lib v with
    | none => .error i
    | some r =>
      match processValuesNew lib rest (i + 1) with
      | .error e => .error e
      | .ok rs => .ok (r :: rs)

/-- Embedding of one iteration of the `processEnum` value loop of the
older variant (`src/unnamed/part_000`, lines 298-312), parameterized by
the configured converters and the external stringer transforms:
`typeConverter` is `caser.Converter(enum.Serialize.Type)` with default
`caser.PhraseToPascal`, `valueConverter` is
`caser.Converter(enum.Serialize.Value)` with default passthrough,
`removeSymbols` is `stringer.RemoveSymbols` and `removeSpace` is
`stringer.RemoveSpace`.  Note that in the branch with `name` present
and `serialized` absent the source only assigns
`value.Serialized = typeConverter(value.Name)` and leaves `name`
untouched, and in the branch with both present the source changes
nothing at all. -/
def resolveValueOld (typeConverter valueConverter removeSymbols removeSpace : String → String)
    (v : ValueSpec) : Option ValueSpec :=
  if isEmptyS v.name && isEmptyS v.serialized then none
  else if isEmptyS v.name && !isEmptyS v.serialized then
    some { v with name := removeSpace (removeSymbols (valueConverter v.serialized)) }
  else if !isEmptyS v.name && isEmptyS v.serialized then
    some { v with serialized := typeConverter v.name }
  else
    some v

/-- Models `database/sql/driver` input values as seen by the generated
`Scan`: the nil interface, a Go string, a byte slice, or any other
driver value, represented by the text that `fmt.Sprintf("%v", v)`
renders for it. -/
inductive DriverValue where
  | null
  | str (s : String)
  | bytes (bs : List UInt8)
  | other (rendered : String)
deriving DecidableEq

/-- Models `driver.String.ConvertValue` from the Go standard library:
strings and byte slices are returned unchanged, anything else is
rendered with `fmt.Sprintf("%v", v)`.  This converter never returns an
error, so the error branch after it in `Scan` is dead code. -/
def convertValueString : DriverValue → DriverValue
  | .str s => .str s
  | .bytes bs => .bytes bs
  | .null => .str "<nil>"
  | .other rendered => .str rendered

/-- Error cases of the embedded `enumer.Scan`: the
`fmt.Errorf("cannot be null")` error, the `fmt.Errorf("not a string")`
error, and a parser error returned verbatim. -/
inductive ScanError (e : Type) where
  | nullValue
  | notAString
  | fromParse (err : e)

/-- Embedding of `enumer.Scan` (`src/unnamed/part_000`, lines 730-756):
nil input fails with the null error; the driver-coerced value must be a
string, otherwise the not-a-string error; the coerced text is handed to
the parser and a parser error is returned unchanged. -/
def Scan {e E : Type} (value : DriverValue) (parser : String → Except e E) :
    Except (ScanError e) E :=
  match value with
  | .null => .error .nullValue
  | v =>
    match convertValueString v with
    | .str s =>
      match parser s with
      | .error err => .error (.fromParse err)
      | .ok p => .ok p
    | _ => .error .notAString

/-- Lifts a parser result into the `Scan` result type without touching
it: success stays success, and an error is carried verbatim.  Used to
state that `Scan` adds no error semantics of its own. -/
def delegate {e E : Type} : Except e E → Except (ScanError e) E
  | .ok p => .ok p
  | .error err => .error (ScanError.fromParse err)

/-- Success test on a resolution result, used to state claims without
binders: true exactly on `Except.ok`. -/
def isOkResult {e a : Type} : Except e a → Bool
  | .ok _ => true
  | .error _ => false

/-- Concrete two-value enumeration used to evaluate the generated
matcher: the spec values are name `Alpha` with serialized `alpha`, and
name `Beta` with serialized `beta` and one `parse-from` alias `b`. -/
def demoValues : List ValueSpec :=
  [ { name := "Alpha", serialized := "alpha", parseFrom := [] },
    { name := "Beta", serialized := "beta", parseFrom := ["b"] } ]

/-- Concrete instantiation of the external text transforms with the
identity, used for closed evaluations of the resolution loop (the
claims settled with it do not depend on the transform bodies). -/
def idLib : CaserLib :=
  { replaceNonLanguageCharacters := id, phraseToPascal := id,
    removeNonLanguageCharacters := id, pascalToKebabLower := id, removeSpace := id }

/-- Concrete whitespace-removing transform used as an instantiation of
the external `stringer.RemoveSpace` capability in counterexamples. -/
def stripSpaces (s : String) : String :=
  ⟨s.data.filter (fun c => !(c == ' '))⟩

/-! ### Character-level facts about the ASCII case maps -/

/-- Converting a number below the surrogate range to a character and
back is the identity. -/
theorem toNat_ofNat_valid {n : Nat} (h : n < 55296) : (Char.ofNat n).toNat = n := by
  unfold Char.ofNat
  rw [dif_pos (Or.inl h)]
  rfl

/-- Unfolding of the core `Char.toLower`, the ASCII lower-casing map. -/
theorem toLower_eq (c : Char) :
    c.toLower = if 65 ≤ c.toNat ∧ c.toNat ≤ 90 then Char.ofNat (c.toNat + 32) else c := rfl

/-- Unfolding of the core `Char.toUpper`, the ASCII upper-casing map. -/
theorem toUpper_eq (c : Char) :
    c.toUpper = if 97 ≤ c.toNat ∧ c.toNat ≤ 122 then Char.ofNat (c.toNat - 32) else c := rfl

/-- Code point of the lower-cased character. -/
theorem toLower_toNat (c : Char) :
    c.toLower.toNat = if 65 ≤ c.toNat ∧ c.toNat ≤ 90 then c.toNat + 32 else c.toNat := by
  rw [toLower_eq]
  split
  · exact toNat_ofNat_valid (by omega)
  · rfl

/-- Code point of the upper-cased character. -/
theorem toUpper_toNat (c : Char) :
    c.toUpper.toNat = if 97 ≤ c.toNat ∧ c.toNat ≤ 122 then c.toNat - 32 else c.toNat := by
  rw [toUpper_eq]
  split
  · exact toNat_ofNat_valid (by omega)
  · rfl

/-- Characters with equal code points are equal. -/
theorem char_toNat_inj {a b : Char} (h : a.toNat = b.toNat) : a = b :=
  Char.ext (UInt32.ext h)

/-- When a lower-cased character coincides with an upper-cased one, the
underlying characters already coincide after lower-casing: the
upper-case comparison can only succeed on caseless characters. -/
theorem lower_eq_upper_char {x y : Char} (h : x.toLower = y.toUpper) :
    x.toLower = y.toLower := by
  have hn : x.toLower.toNat = y.toUpper.toNat := congrArg Char.toNat h
  rw [toLower_toNat, toUpper_toNat] at hn
  apply char_toNat_inj
  rw [toLower_toNat, toLower_toNat]
  split at hn <;> split at hn <;> split <;> split <;> omega

/-- List version of `lower_eq_upper_char`. -/
theorem map_toLower_eq_of_eq_map_toUpper :
    ∀ {xs ys : List Char}, xs.map Char.toLower = ys.map Char.toUpper →
      xs.map Char.toLower = ys.map Char.toLower
  | [], [], _ => rfl
  | [], _ :: _, h => by simp at h
  | _ :: _, [], h => by simp at h
  | x :: xs, y :: ys, h => by
    simp only [List.map_cons, List.cons.injEq] at h ⊢
    exact ⟨lower_eq_upper_char h.1, map_toLower_eq_of_eq_map_toUpper h.2⟩

/-- String version: the third comparison branch of `IsEq` is subsumed
by the lower-case branch. -/
theorem goToLower_eq_of_eq_goToUpper {a b : String} (h : goToLower a = goToUpper b) :
    goToLower a = goToLower b := by
  have hd : a.data.map Char.toLower = b.data.map Char.toUpper := congrArg String.data h
  exact congrArg String.mk (map_toLower_eq_of_eq_map_toUpper hd)

/-! ### Helper lemmas about the resolution loop and the matchers -/

/-- A value spec with a name or a serialized form always resolves. -/
theorem resolveValueNew_isSome (lib : CaserLib) (v : ValueSpec)
    (h : v.name ≠ "" ∨ v.serialized ≠ "") : ∃ r, resolveValueNew lib v = some r := by
  have hempty : (isEmptyS v.name && isEmptyS v.serialized) = false := by
    rcases h with h2 | h2 <;> simp [isEmptyS, h2]
  unfold resolveValueNew
  rw [hempty]
  simp only [Bool.false_eq_true, if_false]
  split
  · exact ⟨_, rfl⟩
  · split
    · exact ⟨_, rfl⟩
    · exact ⟨_, rfl⟩

/-- A value spec with both fields absent is rejected. -/
theorem resolveValueNew_none (lib : CaserLib) (v : ValueSpec)
    (h1 : v.name = "") (h2 : v.serialized = "") : resolveValueNew lib v = none := by
  simp [resolveValueNew, isEmptyS, h1, h2]

/-- The resolution loop succeeds on any list of individually valid
value specs, whatever their serialized forms are. -/
theorem processValuesNew_ok (lib : CaserLib) :
    ∀ (specs : List ValueSpec) (k : Nat),
      (∀ v ∈ specs, v.name ≠ "" ∨ v.serialized ≠ "") →
      ∃ out, processValuesNew lib specs k = .ok out := by
  intro specs
  induction specs with
  | nil => exact fun k _ => ⟨[], rfl⟩
  | cons v rest ih =>
    intro k h
    obtain ⟨r, hr⟩ := resolveValueNew_isSome lib v (h v (by simp))
    obtain ⟨out, ho⟩ := ih (k + 1) (fun x hx => h x (by simp [hx]))
    refine ⟨r :: out, ?_⟩
    unfold processValuesNew
    rw [hr, ho]

/-- The resolution loop aborts at the first invalid value spec,
reporting the running index of that spec. -/
theorem processValuesNew_error_at (lib : CaserLib) :
    ∀ (specs : List ValueSpec) (k i : Nat) (hi : i < specs.length),
      (specs.get ⟨i, hi⟩).name = "" → (specs.get ⟨i, hi⟩).serialized = "" →
      (∀ j (hj : j < i), ¬((specs.get ⟨j, Nat.lt_trans hj hi⟩).name = "" ∧
        (specs.get ⟨j, Nat.lt_trans hj hi⟩).serialized = "")) →
      processValuesNew lib specs k = .error (k + i) := by
  intro specs
  induction specs with
  | nil => intro k i hi; exact absurd hi (Nat.not_lt_zero i)
  | cons v rest ih =>
    intro k i hi hname hser hmin
    cases i with
    | zero =>
      have : resolveValueNew lib v = none := resolveValueNew_none lib v hname hser
      unfold processValuesNew
      rw [this]
      rfl
    | succ n =>
      have h0 : ¬(v.name = "" ∧ v.serialized = "") := hmin 0 (Nat.succ_pos n)
      obtain ⟨r, hr⟩ := resolveValueNew_isSome lib v (not_and_or.mp h0)
      have hrec := ih (k + 1) n (Nat.lt_of_succ_lt_succ hi) hname hser
        (fun j hj => hmin (j + 1) (Nat.succ_lt_succ hj))
      unfold processValuesNew
      rw [hr, hrec]
      have : k + 1 + n = k + (n + 1) := by omega
      rw [this]

/-- The older generated existence check agrees with the older generated
match loop. -/
theorem isFromOld_iff (v : String) (values : List String) :
    IsFromOld v values = true ↔ ∃ x, ParseFromOld v values = .ok x := by
  unfold IsFromOld ParseFromOld
  rw [List.any_eq_true, ← List.find?_isSome]
  cases hf : values.find? (fun value => IsEq v value) with
  | some found =>
    constructor
    · exact fun _ => ⟨found, rfl⟩
    · exact fun _ => rfl
  | none =>
    constructor
    · intro h
      exact absurd h (by simp)
    · rintro ⟨x, hx⟩
      exact absurd hx (by simp)

/-- The current generated existence check is, by its definition, the
success test of the current generated match loop. -/
theorem isFromNew_iff (all : List ValueSpec) (v : String) (items : List String) :
    IsFromNew all v items = true ↔ ∃ x, ParseFromNew all v items = .ok x := by
  unfold IsFromNew
  cases h : ParseFromNew all v items with
  | ok x => simp [h]
  | error er => simp [h]

/-! ### Claim theorems -/

/-- Claim C1 (code bug evidence).  The claim states that `parse`
succeeds case-insensitively on every serialized form and every
`parse-from` alias of every value.  Evaluating the embedded generated
matchers on the two-value demo enumeration shows the opposite: the
current generated `Parse` succeeds on the first value (`alpha`) but
returns the unrecognized-value error for the serialized form of the
second value (`beta`), for a case variant of the first (`ALPHA`), and
for a registered alias (`b`), because the failure return sits inside
the first loop iteration and the comparison is exact.  The older
generated variant does scan all values case-insensitively (`BETA`
parses) but never consults the alias list (`b` fails). -/
theorem C1_parse_misses_later_values_and_case :
    ParseNew demoValues "alpha" = .ok "alpha" ∧
    ParseNew demoValues "beta" =
      .error { text := "beta", valid := ["alpha", "Alpha", "beta", "Beta", "b"] } ∧
    ParseNew demoValues "ALPHA" =
      .error { text := "ALPHA", valid := ["alpha", "Alpha", "beta", "Beta", "b"] } ∧
    ParseNew demoValues "b" =
      .error { text := "b", valid := ["alpha", "Alpha", "beta", "Beta", "b"] } ∧
    ParseFromOld "b" (ValuesNew demoValues) =
      .error { text := "b", valid := ["alpha", "beta"] } ∧
    ParseFromOld "BETA" (ValuesNew demoValues) = .ok "beta" :=
  ⟨rfl, rfl, rfl, rfl, rfl, rfl⟩

/-- Claim C2 (counterexample).  Two value specs whose serialized forms
differ only by letter case (`Active` and `active`) do not make
resolution fail: the value loop of `processEnum` performs no
uniqueness validation of any kind, so resolution succeeds and returns
a definition containing both values. -/
theorem C2_case_collision_resolves_counterexample :
    processValuesNew idLib [⟨"", "Active", []⟩, ⟨"", "active", []⟩] 0 =
      .ok [⟨"Active", "Active", []⟩, ⟨"active", "active", []⟩] := rfl

/-- Claim C2 (amended).  Resolution never fails on serialized-form
collisions: for every transform bundle and every list of value specs
in which each spec carries a name or a serialized form, the value loop
succeeds, including when two serialized forms differ only by case. -/
theorem C2_no_ambiguity_check_amended (lib : CaserLib) (specs : List ValueSpec)
    (h : ∀ v ∈ specs, v.name ≠ "" ∨ v.serialized ≠ "") :
    isOkResult (processValuesNew lib specs 0) = true := by
  obtain ⟨out, ho⟩ := processValuesNew_ok lib specs 0 h
  rw [ho]
  rfl

/-- Claim C2 (witness for the amended theorem): the case-colliding pair
`On` / `on` resolves successfully. -/
theorem C2_no_ambiguity_check_witness :
    isOkResult (processValuesNew idLib [⟨"", "On", []⟩, ⟨"", "on", []⟩] 0) = true :=
  C2_no_ambiguity_check_amended idLib _ (by decide)

/-- Claim C3 (code bug evidence).  The claim states that `parseFrom`
iterates all candidates in order, matches case-insensitively against
serialized form, name and aliases, and only fails after exhausting the
whole candidate sequence.  Evaluating the embedded generated
`ParseFrom` shows that the text `beta`, an exact serialized form of
the second candidate, is rejected when the first candidate is examined
first, while reordering the candidates makes the same text succeed;
and that matching is case-sensitive (`BETA` is rejected against the
`beta` candidate, with an error that carries every alias of the
candidates rather than only their serialized forms). -/
theorem C3_parseFrom_first_candidate_only :
    ParseFromNew demoValues "beta" ["alpha", "beta"] =
      .error { text := "beta", valid := ["alpha", "Alpha", "beta", "Beta", "b"] } ∧
    ParseFromNew demoValues "beta" ["beta", "alpha"] = .ok "beta" ∧
    ParseFromNew demoValues "BETA" ["beta"] =
      .error { text := "BETA", valid := ["beta", "Beta", "b"] } :=
  ⟨rfl, rfl, rfl⟩

/-- Claim C4.  For a value spec with `serialized` present and `name`
absent, the older-variant resolver (the variant that has the
configurable converters the claim speaks about) sets `name` to
`valueConverter(serialized)` with symbols and then whitespace stripped,
keeps `serialized` exactly as supplied, keeps the alias list, and the
result does not depend on `typeConverter` at all (second conjunct:
replacing `typeConverter` by any other function gives the same
result). -/
theorem C4_name_derived_from_serialized
    (tc tc2 vc rs rsp : String → String) (v : ValueSpec)
    (h1 : v.name = "") (h2 : v.serialized ≠ "") :
    resolveValueOld tc vc rs rsp v =
      some { name := rsp (rs (vc v.serialized)), serialized := v.serialized,
             parseFrom := v.parseFrom } ∧
    resolveValueOld tc vc rs rsp v = resolveValueOld tc2 vc rs rsp v := by
  have hn : (isEmptyS v.name) = true := by simp [isEmptyS, h1]
  have hs : (isEmptyS v.serialized) = false := by simp [isEmptyS, h2]
  unfold resolveValueOld
  rw [hn, hs]
  exact ⟨rfl, rfl⟩

/-- Claim C4 (witness): the spec with only `serialized := "done"` and
the identity value converter resolves to name `done`, keeping the
serialized form and the alias list; swapping the type converter for
the identity changes nothing. -/
theorem C4_name_derived_from_serialized_witness :
    resolveValueOld (fun s => s ++ "X") id id id ⟨"", "done", ["complete"]⟩ =
        some ⟨"done", "done", ["complete"]⟩ ∧
      resolveValueOld (fun s => s ++ "X") id id id ⟨"", "done", ["complete"]⟩ =
        resolveValueOld id id id id ⟨"", "done", ["complete"]⟩ :=
  C4_name_derived_from_serialized (fun s => s ++ "X") id id id id
    ⟨"", "done", ["complete"]⟩ rfl (by decide)

/-- Claim C5 (counterexample).  The claim states that with `name`
present and `serialized` absent the resolver normalizes `name`
(symbols and whitespace stripped).  With the whitespace-stripping
capability instantiated concretely, the spec with name `a b` resolves
with its name kept verbatim, whitespace included, so the resolved name
differs from the normalized name the claim prescribes. -/
theorem C5_name_not_normalized_counterexample :
    resolveValueOld (fun s => s ++ "!") id id stripSpaces ⟨"a b", "", []⟩ =
        some ⟨"a b", "a b!", []⟩ ∧
      resolveValueOld (fun s => s ++ "!") id id stripSpaces ⟨"a b", "", []⟩ ≠
        some ⟨stripSpaces "a b", "a b!", []⟩ :=
  ⟨rfl, by decide⟩

/-- Claim C5 (amended).  For a value spec with `name` present and
`serialized` absent, the older-variant resolver sets `serialized` to
exactly `typeConverter(name)` with no post-processing, and leaves
`name` and the alias list completely unchanged (no symbol or
whitespace normalization is applied to `name` in this branch). -/
theorem C5_serialized_from_typeConverter_amended
    (tc vc rs rsp : String → String) (v : ValueSpec)
    (h1 : v.name ≠ "") (h2 : v.serialized = "") :
    resolveValueOld tc vc rs rsp v =
      some { name := v.name, serialized := tc v.name, parseFrom := v.parseFrom } := by
  have hn : (isEmptyS v.name) = false := by simp [isEmptyS, h1]
  have hs : (isEmptyS v.serialized) = true := by simp [isEmptyS, h2]
  unfold resolveValueOld
  rw [hn, hs]
  rfl

/-- Claim C5 (witness for the amended theorem): the spec with only
`name := "In Progress"` gets the converter output as its serialized
form while the name keeps its space. -/
theorem C5_serialized_from_typeConverter_witness :
    resolveValueOld (fun s => s ++ "Q") id id id ⟨"In Progress", "", []⟩ =
      some ⟨"In Progress", "In ProgressQ", []⟩ :=
  C5_serialized_from_typeConverter_amended (fun s => s ++ "Q") id id id
    ⟨"In Progress", "", []⟩ (by decide) rfl

/-- Claim C6.  If the value spec at index `i` has both `name` and
`serialized` absent and every earlier spec does not, the whole value
loop of `processEnum` aborts with the invalid-value-spec error
carrying exactly the index `i`; the `Except` result carries no
resolved values at all, so no partial definition is produced for the
other values. -/
theorem C6_invalid_spec_aborts (lib : CaserLib) (specs : List ValueSpec)
    (i : Nat) (hi : i < specs.length)
    (hname : (specs.get ⟨i, hi⟩).name = "")
    (hser : (specs.get ⟨i, hi⟩).serialized = "")
    (hmin : ∀ j (hj : j < i), ¬((specs.get ⟨j, Nat.lt_trans hj hi⟩).name = "" ∧
      (specs.get ⟨j, Nat.lt_trans hj hi⟩).serialized = "")) :
    processValuesNew lib specs 0 = .error i := by
  have := processValuesNew_error_at lib specs 0 i hi hname hser hmin
  rwa [Nat.zero_add] at this

/-- Claim C6 (witness): a valid spec followed by an empty spec aborts
the loop with error index 1. -/
theorem C6_invalid_spec_aborts_witness :
    processValuesNew idLib [⟨"x", "y", []⟩, ⟨"", "", []⟩] 0 = .error 1 :=
  C6_invalid_spec_aborts idLib [⟨"x", "y", []⟩, ⟨"", "", []⟩] 1 (by decide) rfl rfl
    (fun j hj => by
      have hj0 : j = 0 := by omega
      subst hj0
      simp)

/-- Claim C7.  For both generated variants, the existence checks are
exactly the success tests of the corresponding match operations on the
same candidate sequence, and they return a plain Bool (the underlying
error value is dropped, never propagated): `IsFrom` holds iff
`ParseFrom` returns a value, and `Is` holds iff `Parse` returns a
value. -/
theorem C7_is_iff_parse_succeeds :
    (∀ (all : List ValueSpec) (v : String) (items : List String),
        IsFromNew all v items = true ↔ ∃ x, ParseFromNew all v items = .ok x) ∧
    (∀ (all : List ValueSpec) (v : String),
        IsNew all v = true ↔ ∃ x, ParseNew all v = .ok x) ∧
    (∀ (v : String) (values : List String),
        IsFromOld v values = true ↔ ∃ x, ParseFromOld v values = .ok x) ∧
    (∀ (values : List String) (v : String),
        IsOld values v = true ↔ ∃ x, ParseOld values v = .ok x) :=
  ⟨isFromNew_iff, fun all v => isFromNew_iff all v (ValuesNew all),
    isFromOld_iff, fun values v => isFromOld_iff v values⟩

/-- Claim C8.  The embedded `enumer.Scan` fails with the null error on
nil input, fails with the not-a-string error when the driver coercion
does not yield a string (the byte-slice case, the only driver value
the string converter does not turn into a string), and otherwise hands
the coerced text to the parser and returns its outcome unchanged:
success stays success and a parser error is carried verbatim with no
added error semantics. -/
theorem C8_scan_error_contract (e E : Type) (parser : String → Except e E)
    (bs : List UInt8) (s r : String) :
    Scan DriverValue.null parser = .error ScanError.nullValue ∧
    Scan (DriverValue.bytes bs) parser = .error ScanError.notAString ∧
    Scan (DriverValue.str s) parser = delegate (parser s) ∧
    Scan (DriverValue.other r) parser = delegate (parser r) := by
  refine ⟨rfl, rfl, ?_, ?_⟩
  · cases hp : parser s <;> simp [Scan, convertValueString, delegate, hp]
  · cases hp : parser r <;> simp [Scan, convertValueString, delegate, hp]

/-- Claim C9.  `IsEq a b` holds exactly when `a` equals `b` or their
lower-cased forms coincide: the third comparison branch of the source,
which lower-cases `a` (the variable named `upper` is computed with
`ToLower`) and upper-cases `b`, contributes no additional matches
beyond the lower-case branch. -/
theorem C9_IsEq_exact_or_lowercase (a b : String) :
    IsEq a b = true ↔ (a = b ∨ goToLower a = goToLower b) := by
  unfold IsEq
  simp only [Bool.or_eq_true, beq_iff_eq]
  constructor
  · rintro ((h | h) | h)
    · exact Or.inl h
    · exact Or.inr h
    · exact Or.inr (goToLower_eq_of_eq_goToUpper h)
  · rintro (h | h)
    · exact Or.inl (Or.inl h)
    · exact Or.inl (Or.inr h)

/-- Claim C10.  The current generated `ParseFrom` applied to an empty
candidate sequence falls through its loop and returns the zero value
of the enumeration (the empty string) with a nil error, so the
corresponding `IsFrom` reports true for every text. -/
theorem C10_empty_candidates_succeed (all : List ValueSpec) (v : String) :
    ParseFromNew all v [] = .ok "" ∧ IsFromNew all v [] = true :=
  ⟨rfl, rfl⟩

end Enumer
